import Mathlib

/-!
Verification of the inference orchestration engine of a Python HMM / HSMM
library (models.py).  The development shallowly embeds the model data
structure, the constructor validation, the Gibbs sweep orchestration, the
cache invalidation discipline, the parallel state resampling protocol, the
EM preconditions, the scoped log likelihood computation, the predictive
likelihood computations, BIC, and the copy/snapshot discipline.

Collaborator objects (observation, transition, initial state and duration
posteriors, and the per chain dynamic programming object) are external to
the source file; their behaviour is abstracted as function parameters, while
every piece of control flow and data plumbing that lives in models.py is
embedded faithfully.  Python in-place mutation is rendered as explicit state
passing: an operation that mutates the model returns the new model, and an
operation that can raise returns the new model together with an optional
error (the model component is the state the caller observes when the
exception propagates).
-/

set_option maxHeartbeats 1000000

namespace Pyhsmm

/-- Errors that the embedded code can raise.  assertionError corresponds to a
failed Python assert statement, typeError to calling a non callable value,
workerFailure to an exception escaping the parallel map. -/
inductive PyErr where
  | assertionError
  | typeError
  | workerFailure
  deriving DecidableEq, Repr

/-- An observation posterior object: the current sampled parameter value is
abstracted as an integer code, and the object reports its parameter count
(collaborator method num_parameters, external). -/
structure ObsDistn where
  params : Int
  num_parameters : Nat
  deriving DecidableEq, Repr

/-- A duration posterior object (HSMM only), same abstraction. -/
structure DurDistn where
  params : Int
  num_parameters : Nat
  deriving DecidableEq, Repr

/-- The three kinds of transition posterior object the constructor can end up
holding: an object passed in by the caller, a weak limit posterior built from
fixed concentrations, or a concentration resampling posterior built from the
four hyperpriors. -/
inductive TransMode where
  | passedIn
  | weakLimit (alpha gamma : ℚ)
  | conc (alpha_a_0 alpha_b_0 gamma_a_0 gamma_b_0 : ℚ)
  deriving DecidableEq, Repr

/-- A transition posterior object. -/
structure TransDistn where
  num_states : Nat
  mode : TransMode
  params : Int
  deriving DecidableEq, Repr

/-- An initial state posterior object.  hasClearCaches models the Python
hasattr check in _clear_caches: only the derived steady state form carries a
clear_caches method (its cached stationary distribution); cache records
whether such a derived cache is currently populated. -/
structure InitStateDistn where
  params : Int
  hasClearCaches : Bool
  cache : Bool
  deriving DecidableEq, Repr

/-- A per sequence chain state object (states class instance).  Only the
attributes that models.py reads are modelled.  cache is a validity flag for
the forward/backward and log likelihood tables (cleared by clear_caches);
expectations, alphal, betal and aBl are the tables the EM M steps read;
durations_censored, stateseq_norep and untrunc are the HSMM duration
bookkeeping, where untrunc is the boundary between the untruncated slice and
the right truncated slice of the censored durations. -/
structure Chain where
  data : List Int
  stateseq : List Nat
  cache : Bool
  expectations : List (List ℚ)
  alphal : List (List ℚ)
  betal : List (List ℚ)
  aBl : List (List ℚ)
  durations_censored : List Nat
  stateseq_norep : List Nat
  untrunc : Nat
  deriving DecidableEq, Repr

/-- The HMM model object: the fields set by HMM.__init__. -/
structure HMM where
  num_states : Nat
  obs_distns : List ObsDistn
  trans_distn : TransDistn
  init_state_distn : InitStateDistn
  states_list : List Chain
  deriving DecidableEq, Repr

/-- The HSMM model object: the HMM fields plus duration posteriors and the
dedicated left censoring initial state distribution. -/
structure HSMM extends HMM where
  dur_distns : List DurDistn
  left_censoring_init_state_distn : InitStateDistn
  deriving DecidableEq, Repr

/-- The keyword arguments of HMM.__init__ (each optional argument defaults to
None in the source). -/
structure HMMArgs where
  obs_distns : List ObsDistn
  trans_distn : Option TransDistn
  alpha : Option ℚ
  gamma : Option ℚ
  alpha_a_0 : Option ℚ
  alpha_b_0 : Option ℚ
  gamma_a_0 : Option ℚ
  gamma_b_0 : Option ℚ
  init_state_distn : Option InitStateDistn
  init_state_concentration : Option ℚ
  deriving DecidableEq, Repr

/-- The assert on lines 32-35 of models.py, exactly as the source computes it:
Python evaluates (A ^ B) ^ C over booleans, where A is trans_distn given, B is
alpha and gamma both given, C is all four concentration hyperpriors given. -/
def hmm_trans_assert (a : HMMArgs) : Bool :=
  Bool.xor
    (Bool.xor a.trans_distn.isSome (a.alpha.isSome && a.gamma.isSome))
    (a.alpha_a_0.isSome && a.alpha_b_0.isSome &&
      a.gamma_a_0.isSome && a.gamma_b_0.isSome)

/-- How many of the three configuration modes are supplied.  The claim under
test says construction must succeed exactly when this count is one. -/
def transModeCount (a : HMMArgs) : Nat :=
  (if a.trans_distn.isSome then 1 else 0)
  + (if a.alpha.isSome && a.gamma.isSome then 1 else 0)
  + (if a.alpha_a_0.isSome && a.alpha_b_0.isSome &&
        a.gamma_a_0.isSome && a.gamma_b_0.isSome then 1 else 0)

/-- HMM.__init__ (models.py lines 21-57).  A failed assert is a raised
AssertionError.  The params field of a freshly built posterior object is the
initial sample drawn inside the external collaborator constructor; it is
modelled as 0.  In the weak limit branch the source tests only alpha and
passes gamma through unchanged (possibly None); getD 0 stands for that pass
through, and in every state reachable past the assert with that branch both
values are present anyway. -/
def HMM.init (a : HMMArgs) : Except PyErr HMM :=
  if hmm_trans_assert a then
    let ns := a.obs_distns.length
    let trans : TransDistn :=
      match a.trans_distn with
      | some t => t
      | none =>
        match a.alpha with
        | some al =>
            { num_states := ns, mode := TransMode.weakLimit al (a.gamma.getD 0),
              params := 0 }
        | none =>
            { num_states := ns,
              mode := TransMode.conc (a.alpha_a_0.getD 0) (a.alpha_b_0.getD 0)
                (a.gamma_a_0.getD 0) (a.gamma_b_0.getD 0),
              params := 0 }
    let isd : InitStateDistn :=
      match a.init_state_distn with
      | some d => d
      | none =>
        match a.init_state_concentration with
        | some _ =>
            -- initial_state.InitialState object: no derived cache machinery
            { params := 0, hasClearCaches := false, cache := false }
        | none =>
            -- steady state of the transition matrix: derived, cached, clearable
            { params := 0, hasClearCaches := true, cache := false }
    Except.ok
      { num_states := ns, obs_distns := a.obs_distns, trans_distn := trans,
        init_state_distn := isd, states_list := [] }
  else
    Except.error PyErr.assertionError

/-- HSMM.__init__ (models.py lines 406-415): store the duration posteriors,
run the HMM constructor, then install the dedicated left censoring initial
state distribution (reusing the initial state distribution when it already is
the derived steady state form, otherwise building a fresh steady state
object). -/
def HSMM.init (dur_distns : List DurDistn) (a : HMMArgs) : Except PyErr HSMM :=
  match HMM.init a with
  | Except.error e => Except.error e
  | Except.ok h =>
      let lc : InitStateDistn :=
        if h.init_state_distn.hasClearCaches then h.init_state_distn
        else { params := 0, hasClearCaches := true, cache := false }
      Except.ok { toHMM := h, dur_distns := dur_distns,
                  left_censoring_init_state_distn := lc }

/-- Whether an Except value is a successful result. -/
def exceptIsOk {α : Type} : Except PyErr α → Bool
  | Except.ok _ => true
  | Except.error _ => false

/-- HMM.num_parameters (models.py lines 248-250), a read only property. -/
def HMM.num_parameters (m : HMM) : Nat :=
  (m.obs_distns.map ObsDistn.num_parameters).sum + m.num_states ^ 2

/-- HSMM.num_parameters (models.py lines 492-496), a read only property. -/
def HSMM.num_parameters (m : HSMM) : Nat :=
  (m.obs_distns.map ObsDistn.num_parameters).sum
    + (m.dur_distns.map DurDistn.num_parameters).sum
    + m.num_states ^ 2 - m.num_states

/-- Constructor arguments that supply all three configuration modes at once:
a transition posterior object, fixed concentrations alpha and gamma, and all
four concentration hyperpriors. -/
def argsAllThreeModes : HMMArgs :=
  { obs_distns := [⟨0, 1⟩, ⟨0, 1⟩],
    trans_distn := some { num_states := 2, mode := TransMode.passedIn, params := 0 },
    alpha := some 1, gamma := some 1,
    alpha_a_0 := some 1, alpha_b_0 := some 1,
    gamma_a_0 := some 1, gamma_b_0 := some 1,
    init_state_distn := none, init_state_concentration := none }

/-- C2: the claim says that supplying more than one configuration mode,
including all three, is a construction time fatal error.  The code instead
chains the Python xor operator, which is a parity check: with all three modes
supplied the assert evaluates to True and construction succeeds (taking the
passed in transition posterior).  This theorem evaluates the embedded
constructor at that input: three modes are supplied, the assert passes, and
construction returns a model rather than raising. -/
theorem hmm_init_accepts_all_three_modes :
    transModeCount argsAllThreeModes = 3
      ∧ hmm_trans_assert argsAllThreeModes = true
      ∧ exceptIsOk (HMM.init argsAllThreeModes) = true := by
  refine ⟨rfl, rfl, rfl⟩

/-- C9: for a model built by the constructor, the parameter count is the sum
of the per state observation parameter counts plus numStates squared (HMM),
respectively plus the duration parameter counts and numStates squared minus
numStates (HSMM), with numStates the number of observation posteriors
supplied at construction. -/
theorem num_parameters_formula (a : HMMArgs) (dd : List DurDistn)
    (m : HMM) (mh : HSMM) :
    (HMM.init a = Except.ok m →
      m.num_states = a.obs_distns.length
        ∧ m.num_parameters
            = (m.obs_distns.map ObsDistn.num_parameters).sum + m.num_states ^ 2)
    ∧ (HSMM.init dd a = Except.ok mh →
      mh.num_states = a.obs_distns.length
        ∧ mh.num_parameters
            = (mh.obs_distns.map ObsDistn.num_parameters).sum
              + (mh.dur_distns.map DurDistn.num_parameters).sum
              + (mh.num_states ^ 2 - mh.num_states)) := by
  constructor
  · intro h
    unfold HMM.init at h
    by_cases hb : hmm_trans_assert a
    · simp only [hb, if_true] at h
      cases h
      exact ⟨rfl, rfl⟩
    · simp [hb] at h
  · intro h
    unfold HSMM.init at h
    cases hinit : HMM.init a with
    | error e => rw [hinit] at h; cases h
    | ok hm =>
        rw [hinit] at h
        cases h
        have hsq : hm.num_states ≤ hm.num_states ^ 2 := by
          rcases Nat.eq_zero_or_pos hm.num_states with h0 | h0
          · simp [h0]
          · calc hm.num_states = hm.num_states ^ 1 := (pow_one _).symm
              _ ≤ hm.num_states ^ 2 := Nat.pow_le_pow_right h0 (by omega)
        have hns : hm.num_states = a.obs_distns.length := by
          unfold HMM.init at hinit
          by_cases hb : hmm_trans_assert a
          · simp only [hb, if_true] at hinit
            cases hinit
            rfl
          · simp [hb] at hinit
        refine ⟨hns, ?_⟩
        dsimp only [HSMM.num_parameters]
        omega

/-- Arguments exercising mode (b) (fixed concentrations) for the witness. -/
def cargs9 : HMMArgs :=
  { obs_distns := [⟨0, 2⟩, ⟨0, 3⟩],
    trans_distn := none,
    alpha := some 1, gamma := some 1,
    alpha_a_0 := none, alpha_b_0 := none, gamma_a_0 := none, gamma_b_0 := none,
    init_state_distn := none, init_state_concentration := none }

/-- The model that HMM.init builds from cargs9. -/
def cm9 : HMM :=
  { num_states := 2, obs_distns := [⟨0, 2⟩, ⟨0, 3⟩],
    trans_distn := { num_states := 2, mode := TransMode.weakLimit 1 1, params := 0 },
    init_state_distn := { params := 0, hasClearCaches := true, cache := false },
    states_list := [] }

/-- The HSMM model that HSMM.init builds from cargs9 and two duration
posteriors. -/
def cmh9 : HSMM :=
  { toHMM := cm9, dur_distns := [⟨0, 4⟩, ⟨0, 5⟩],
    left_censoring_init_state_distn :=
      { params := 0, hasClearCaches := true, cache := false } }

/-- Witness for C9: the parameter count formulas instantiated at a concrete
constructed HMM (counts 2 and 3, two states: 2 + 3 + 4 = 9) and HSMM
(additionally duration counts 4 and 5 and squared minus linear term 2:
5 + 9 + 2 = 16). -/
theorem num_parameters_formula_witness :
    (cm9.num_states = cargs9.obs_distns.length
        ∧ cm9.num_parameters
            = (cm9.obs_distns.map ObsDistn.num_parameters).sum + cm9.num_states ^ 2)
    ∧ (cmh9.num_states = cargs9.obs_distns.length
        ∧ cmh9.num_parameters
            = (cmh9.obs_distns.map ObsDistn.num_parameters).sum
              + (cmh9.dur_distns.map DurDistn.num_parameters).sum
              + (cmh9.num_states ^ 2 - cmh9.num_states)) :=
  ⟨(num_parameters_formula cargs9 [⟨0, 4⟩, ⟨0, 5⟩] cm9 cmh9).1 rfl,
   (num_parameters_formula cargs9 [⟨0, 4⟩, ⟨0, 5⟩] cm9 cmh9).2 rfl⟩

/-!  Gibbs sweep orchestration.  Collaborator posterior updates mutate only
the current sampled parameter value of the posterior object (resample draws a
new sample; the methods and static configuration of the object never change),
so they are abstracted as functions from the old parameter code and the
evidence that models.py assembles to the new parameter code.  The chain level
collaborators (resample, E_step, Viterbi) replace the whole chain object
state.  Every operation additionally returns the list of collaborator calls
it performs, in order, so that the sweep ordering claims are about the actual
composition of the embedded operations. -/

/-- One collaborator call performed during a sweep. -/
inductive GibbsEvent where
  | resampleObsDistn (state : Nat)
  | resampleTransDistn
  | resampleInitStateDistn
  | resampleDurDistn (state : Nat)
  | clearCaches
  | resampleChainState (idx : Nat)
  deriving DecidableEq, Repr

/-- Whether an event is a chain state resampling call. -/
def GibbsEvent.isStateEvent : GibbsEvent → Bool
  | GibbsEvent.resampleChainState _ => true
  | _ => false

/-- Whether an event is a duration posterior resampling call. -/
def GibbsEvent.isDurEvent : GibbsEvent → Bool
  | GibbsEvent.resampleDurDistn _ => true
  | _ => false

/-- Whether an event is an observation, transition or initial state posterior
resampling call. -/
def GibbsEvent.isObsTransInitEvent : GibbsEvent → Bool
  | GibbsEvent.resampleObsDistn _ => true
  | GibbsEvent.resampleTransDistn => true
  | GibbsEvent.resampleInitStateDistn => true
  | _ => false

/-- The external collaborator behaviour (observation, transition, initial
state and duration posterior methods, and the chain state methods). -/
structure Collab where
  obsResample : Int → List (List Int) → Int
  transResample : Int → List (List Nat) → Int
  initResample : Int → List (List Nat) → Int
  durResample : Int → List (List Nat) → List (List Nat) → Int
  chainResample : Chain → Chain
  chainEStep : Chain → Chain
  chainViterbi : Chain → Chain
  obsMaxLikelihoodW : Int → List (List Int) → List (List ℚ) → Int
  obsMaxLikelihood : Int → List (List Int) → Int
  initMaxLikelihoodW : Int → List (List ℚ) → Int
  initMaxLikelihood : Int → List Nat → Int
  transMaxLikelihoodMsgs :
    Int → List (List (List ℚ) × List (List ℚ) × List (List ℚ)) → Int
  transMaxLikelihood : Int → List (List Nat) → Int

/-- The logical indexing s.data[s.stateseq == state] of models.py: the
observations of chain s at the positions currently labelled with the given
state. -/
def dataForState (s : Chain) (state : Nat) : List Int :=
  (s.data.zip s.stateseq).filterMap
    (fun p => if p.2 = state then some p.1 else none)

/-- Chain.clear_caches: invalidate the cached per chain tables. -/
def Chain.clear_caches (s : Chain) : Chain := { s with cache := false }

/-- HMM._clear_caches (models.py lines 106-110): clear every attached chain
cache, and the derived initial state cache when the initial state distribution
has a clear_caches method (the hasattr check). -/
def clear_caches (m : HMM) : HMM :=
  { m with
    states_list := m.states_list.map Chain.clear_caches,
    init_state_distn :=
      if m.init_state_distn.hasClearCaches then
        { m.init_state_distn with cache := false }
      else m.init_state_distn }

/-- HMM.resample_obs_distns (models.py lines 127-132): for each state, the
posterior is resampled from the observations currently assigned to that
state across all chains; then all caches are invalidated. -/
def HMM.resample_obs_distns (C : Collab) (m : HMM) : HMM × List GibbsEvent :=
  let newObs := m.obs_distns.enum.map (fun sd =>
    let evidence := m.states_list.map (fun s => dataForState s sd.1)
    { sd.2 with params := C.obsResample sd.2.params evidence })
  let m2 := clear_caches { m with obs_distns := newObs }
  (m2, (List.range m.obs_distns.length).map GibbsEvent.resampleObsDistn
        ++ [GibbsEvent.clearCaches])

/-- HMM.resample_trans_distn (models.py lines 134-137): the transition
posterior receives the list of per chain state sequences; then all caches are
invalidated. -/
def HMM.resample_trans_distn (C : Collab) (m : HMM) : HMM × List GibbsEvent :=
  let evidence := m.states_list.map Chain.stateseq
  let newTrans :=
    { m.trans_distn with params := C.transResample m.trans_distn.params evidence }
  let m2 := clear_caches { m with trans_distn := newTrans }
  (m2, [GibbsEvent.resampleTransDistn, GibbsEvent.clearCaches])

/-- HMM.resample_init_state_distn (models.py lines 139-142): the initial
state posterior receives, per chain, only the first state (stateseq[:1]);
then all caches are invalidated. -/
def HMM.resample_init_state_distn (C : Collab) (m : HMM) : HMM × List GibbsEvent :=
  let evidence := m.states_list.map (fun s => s.stateseq.take 1)
  let newInit :=
    { m.init_state_distn with
      params := C.initResample m.init_state_distn.params evidence }
  let m2 := clear_caches { m with init_state_distn := newInit }
  (m2, [GibbsEvent.resampleInitStateDistn, GibbsEvent.clearCaches])

/-- HMM.resample_states (models.py lines 144-146): each chain resamples its
own state sequence in turn. -/
def HMM.resample_states (C : Collab) (m : HMM) : HMM × List GibbsEvent :=
  ({ m with states_list := m.states_list.map C.chainResample },
   (List.range m.states_list.length).map GibbsEvent.resampleChainState)

/-- HMM.resample_parameters (models.py lines 122-125): observation, then
transition, then initial state posteriors. -/
def HMM.resample_parameters (C : Collab) (m : HMM) : HMM × List GibbsEvent :=
  let r1 := HMM.resample_obs_distns C m
  let r2 := HMM.resample_trans_distn C r1.1
  let r3 := HMM.resample_init_state_distn C r2.1
  (r3.1, r1.2 ++ r2.2 ++ r3.2)

/-- HMM.resample_model (models.py lines 118-120): parameters first, then
states. -/
def HMM.resample_model (C : Collab) (m : HMM) : HMM × List GibbsEvent :=
  let rp := HMM.resample_parameters C m
  let rs := HMM.resample_states C rp.1
  (rs.1, rp.2 ++ rs.2)

/-- The slicing s.durations_censored[s.untrunc_slice][s.stateseq_norep[
s.untrunc_slice] == state] of models.py line 454: fully observed run
durations currently labelled with the given state. -/
def untruncDurationsForState (s : Chain) (state : Nat) : List Nat :=
  ((s.durations_censored.take s.untrunc).zip (s.stateseq_norep.take s.untrunc)).filterMap
    (fun p => if p.2 = state then some p.1 else none)

/-- The slicing on models.py line 457: right truncated run durations
currently labelled with the given state. -/
def truncDurationsForState (s : Chain) (state : Nat) : List Nat :=
  ((s.durations_censored.drop s.untrunc).zip (s.stateseq_norep.drop s.untrunc)).filterMap
    (fun p => if p.2 = state then some p.1 else none)

/-- HSMM.resample_dur_distns (models.py lines 448-459): each duration
posterior is resampled from the observed and the right truncated durations of
its state; then all caches are invalidated. -/
def HSMM.resample_dur_distns (C : Collab) (m : HSMM) : HSMM × List GibbsEvent :=
  let newDur := m.dur_distns.enum.map (fun sd =>
    let evidence := m.states_list.map (fun s => untruncDurationsForState s sd.1)
    let truncated := m.states_list.map (fun s => truncDurationsForState s sd.1)
    { sd.2 with params := C.durResample sd.2.params evidence truncated })
  let m1 : HSMM := { m with dur_distns := newDur }
  let m2 : HSMM := { m1 with toHMM := clear_caches m1.toHMM }
  (m2, (List.range m.dur_distns.length).map GibbsEvent.resampleDurDistn
        ++ [GibbsEvent.clearCaches])

/-- HSMM.resample_parameters (models.py lines 444-446): duration posteriors
first, then the inherited observation, transition and initial state
updates. -/
def HSMM.resample_parameters (C : Collab) (m : HSMM) : HSMM × List GibbsEvent :=
  let r1 := HSMM.resample_dur_distns C m
  let r2 := HMM.resample_parameters C r1.1.toHMM
  ({ r1.1 with toHMM := r2.1 }, r1.2 ++ r2.2)

/-- resample_model as dispatched on an HSMM instance: the inherited sweep
calls the HSMM parameter update, then resamples states. -/
def HSMM.resample_model (C : Collab) (m : HSMM) : HSMM × List GibbsEvent :=
  let rp := HSMM.resample_parameters C m
  let rs := HMM.resample_states C rp.1.toHMM
  ({ rp.1 with toHMM := rs.1 }, rp.2 ++ rs.2)

/-- All caches a parameter update must invalidate are clear: every attached
chain cache, and the derived initial state cache whenever the initial state
distribution has the clearing hook. -/
def cachesCleared (m : HMM) : Bool :=
  m.states_list.all (fun s => !s.cache)
    && !(m.init_state_distn.hasClearCaches && m.init_state_distn.cache)

theorem cachesCleared_clear_caches (m : HMM) :
    cachesCleared (clear_caches m) = true := by
  unfold cachesCleared clear_caches
  cases h : m.init_state_distn.hasClearCaches <;>
    simp [List.all_map, Chain.clear_caches, h, Function.comp]

/-- C6: each individual parameter resampling operation (observation,
transition, initial state, and on an HSMM the duration posteriors) leaves
every attached chain cache invalidated and the derived initial state cache
invalidated before it returns. -/
theorem resample_ops_invalidate_caches (C : Collab) (m : HMM) (mh : HSMM) :
    cachesCleared (HMM.resample_obs_distns C m).1 = true
    ∧ cachesCleared (HMM.resample_trans_distn C m).1 = true
    ∧ cachesCleared (HMM.resample_init_state_distn C m).1 = true
    ∧ cachesCleared (HSMM.resample_dur_distns C mh).1.toHMM = true := by
  refine ⟨?_, ?_, ?_, ?_⟩
  · show cachesCleared (clear_caches _) = true
    exact cachesCleared_clear_caches _
  · show cachesCleared (clear_caches _) = true
    exact cachesCleared_clear_caches _
  · show cachesCleared (clear_caches _) = true
    exact cachesCleared_clear_caches _
  · show cachesCleared (clear_caches _) = true
    exact cachesCleared_clear_caches _

theorem params_trace_no_state (C : Collab) (m : HMM) :
    ((HMM.resample_parameters C m).2).all (fun e => !e.isStateEvent) = true := by
  simp [HMM.resample_parameters, HMM.resample_obs_distns, HMM.resample_trans_distn,
    HMM.resample_init_state_distn, List.all_map, Function.comp,
    GibbsEvent.isStateEvent]

theorem states_trace_all_state (C : Collab) (m : HMM) :
    ((HMM.resample_states C m).2).all GibbsEvent.isStateEvent = true := by
  simp [HMM.resample_states, List.all_map, Function.comp, GibbsEvent.isStateEvent]

theorem dur_trace_no_oti (C : Collab) (m : HSMM) :
    ((HSMM.resample_dur_distns C m).2).all
      (fun e => !e.isObsTransInitEvent) = true := by
  simp [HSMM.resample_dur_distns, List.all_map, Function.comp,
    GibbsEvent.isObsTransInitEvent]

theorem params_trace_no_dur (C : Collab) (m : HMM) :
    ((HMM.resample_parameters C m).2).all (fun e => !e.isDurEvent) = true := by
  simp [HMM.resample_parameters, HMM.resample_obs_distns, HMM.resample_trans_distn,
    HMM.resample_init_state_distn, List.all_map, Function.comp,
    GibbsEvent.isDurEvent]

theorem hsmm_params_trace_no_state (C : Collab) (m : HSMM) :
    ((HSMM.resample_parameters C m).2).all (fun e => !e.isStateEvent) = true := by
  have h2 := params_trace_no_state C (HSMM.resample_dur_distns C m).1.toHMM
  have h1 : ((HSMM.resample_dur_distns C m).2).all (fun e => !e.isStateEvent) = true := by
    simp [HSMM.resample_dur_distns, List.all_map, Function.comp,
      GibbsEvent.isStateEvent]
  show ((HSMM.resample_dur_distns C m).2
      ++ (HMM.resample_parameters C (HSMM.resample_dur_distns C m).1.toHMM).2).all
      (fun e => !e.isStateEvent) = true
  rw [List.all_append, h1, h2]
  rfl

/-- C5: in a full Gibbs sweep every parameter posterior update strictly
precedes every chain state update (the sweep trace splits into a parameter
phase with no state events followed by a state phase consisting only of
state events), both for the HMM sweep and for the HSMM sweep; and within the
HSMM parameter phase the duration posterior updates come before every
observation, transition and initial state update (the parameter trace splits
into a duration phase containing no observation, transition or initial state
event followed by a phase containing no duration event). -/
theorem resample_model_parameters_before_states (C : Collab) (m : HMM) (mh : HSMM) :
    (∃ p s, (HMM.resample_model C m).2 = p ++ s
      ∧ p.all (fun e => !e.isStateEvent) = true
      ∧ s.all GibbsEvent.isStateEvent = true)
    ∧ (∃ p s, (HSMM.resample_model C mh).2 = p ++ s
      ∧ p.all (fun e => !e.isStateEvent) = true
      ∧ s.all GibbsEvent.isStateEvent = true)
    ∧ (∃ p s, (HSMM.resample_parameters C mh).2 = p ++ s
      ∧ p.all (fun e => !e.isObsTransInitEvent) = true
      ∧ s.all (fun e => !e.isDurEvent) = true) := by
  refine ⟨⟨(HMM.resample_parameters C m).2,
      (HMM.resample_states C (HMM.resample_parameters C m).1).2,
      rfl, params_trace_no_state C m, states_trace_all_state C _⟩,
    ⟨(HSMM.resample_parameters C mh).2,
      (HMM.resample_states C (HSMM.resample_parameters C mh).1.toHMM).2,
      rfl, hsmm_params_trace_no_state C mh, states_trace_all_state C _⟩,
    ⟨(HSMM.resample_dur_distns C mh).2,
      (HMM.resample_parameters C (HSMM.resample_dur_distns C mh).1.toHMM).2,
      rfl, dur_trace_no_oti C mh, params_trace_no_dur C _⟩⟩

/-!  Parallel state resampling (models.py lines 170-181).  The parallel map
collaborator receives the stripped global model (states_list emptied, because
the source pushes the global model to the workers after removing the chains)
and the per chain data payloads, and either returns one fresh state sequence
per chain or raises.  Python mutates the model in place, so the embedding
returns the model state the caller observes together with the optional
propagated exception. -/

/-- HMM.resample_states_parallel.  On success the returned sequences are
written into the original chain objects (zip pairing truncates at the
shorter list, exactly like Python zip) and the chains list is restored; on
failure the exception propagates after states_list was already emptied, and
the restoring assignment on line 181 never runs. -/
def HMM.resample_states_parallel
    (map_on_each : HMM → List (List Int) → Except PyErr (List (List Nat)))
    (m : HMM) : HMM × Option PyErr :=
  let states_to_resample := m.states_list
  let m1 := { m with states_list := [] }
  match map_on_each m1 (states_to_resample.map Chain.data) with
  | Except.error e => (m1, some e)
  | Except.ok raw =>
      let updated := (states_to_resample.zip raw).map
          (fun p => { p.1 with stateseq := p.2 })
        ++ states_to_resample.drop raw.length
      ({ m1 with states_list := updated }, none)

/-- A one chain model used to evaluate the failure path. -/
def cm1 : HMM :=
  { num_states := 1, obs_distns := [⟨0, 1⟩],
    trans_distn := { num_states := 1, mode := TransMode.passedIn, params := 0 },
    init_state_distn := { params := 0, hasClearCaches := true, cache := false },
    states_list := [⟨[5, 6], [0, 0], false, [], [], [], [], [], [], 0⟩] }

/-- A parallel map whose job fails. -/
def failingMapOnEach : HMM → List (List Int) → Except PyErr (List (List Nat)) :=
  fun _ _ => Except.error PyErr.workerFailure

/-- C1: the claim says that when a parallel job fails the whole sweep aborts
with no partial state mutation committed, the chains list being the same as
before the call.  Evaluating the embedded operation on a one chain model
whose parallel map raises shows the divergence: the exception does propagate
and no state sequence is written, but the model is left with an empty chains
list (the restore on line 181 is skipped), so the chains list is not the
same as before the call. -/
theorem resample_states_parallel_failure_drops_chains :
    (HMM.resample_states_parallel failingMapOnEach cm1).2 = some PyErr.workerFailure
    ∧ (HMM.resample_states_parallel failingMapOnEach cm1).1.states_list = []
    ∧ cm1.states_list.length = 1 := by
  refine ⟨rfl, rfl, rfl⟩

/-!  Scoped log likelihood of an independent sequence (models.py lines
78-86).  The chain constructor and the chain log_likelihood method are
external collaborators, either of which may raise.  The evaluation order of
the source is: construct the temporary chain (a constructor failure leaves
the list untouched), append it, pop it back off, and only then invoke
log_likelihood on the popped object, so a scoring failure also leaves the
list already restored. -/

/-- HMM.log_likelihood with a data argument. -/
def HMM.log_likelihood_data
    (mkStates : List Int → Except PyErr Chain)
    (chainLL : Chain → Except PyErr ℚ)
    (m : HMM) (data : List Int) : HMM × Except PyErr ℚ :=
  match mkStates data with
  | Except.error e => (m, Except.error e)
  | Except.ok c =>
      let m1 := { m with states_list := m.states_list ++ [c] }
      let popped := m1.states_list.getLastD c
      let m2 := { m1 with states_list := m1.states_list.dropLast }
      match chainLL popped with
      | Except.error e => (m2, Except.error e)
      | Except.ok v => (m2, Except.ok v)

/-- C3: scoring an independent sequence never changes the chains list: on the
constructor failure path, on the scoring failure path and on the success path
the model ends with exactly the chains it started with. -/
theorem log_likelihood_preserves_states_list
    (mkStates : List Int → Except PyErr Chain)
    (chainLL : Chain → Except PyErr ℚ)
    (m : HMM) (data : List Int) :
    ((HMM.log_likelihood_data mkStates chainLL m data).1).states_list
      = m.states_list := by
  unfold HMM.log_likelihood_data
  cases mkStates data with
  | error e => rfl
  | ok c =>
      simp only [List.getLastD_concat, List.dropLast_concat]
      cases chainLL c with
      | error e => rfl
      | ok v => rfl

/-!  EM and Viterbi EM (models.py lines 199-246).  Both steps assert that at
least one chain is attached before touching any state; the embedding mirrors
the statement order: assert, clear caches, E/decode step, M steps. -/

/-- HMM.EM_step: E step per chain, then maximum likelihood updates of the
observation posteriors (weighted by expected occupancies), the initial state
posterior (first row of expectations) and the transition posterior (raw
message tables). -/
def HMM.EM_step (C : Collab) (m : HMM) : HMM × Option PyErr :=
  if 0 < m.states_list.length then
    let m1 := clear_caches m
    let m2 := { m1 with states_list := m1.states_list.map C.chainEStep }
    let newObs := m2.obs_distns.enum.map (fun sd =>
      let alldata := m2.states_list.map Chain.data
      let weights := m2.states_list.map
        (fun s => s.expectations.map (fun row => row.getD sd.1 0))
      { sd.2 with params := C.obsMaxLikelihoodW sd.2.params alldata weights })
    let m3 := { m2 with obs_distns := newObs }
    let newInit :=
      { m3.init_state_distn with
        params := C.initMaxLikelihoodW m3.init_state_distn.params
          (m3.states_list.map (fun s => s.expectations.headD [])) }
    let m4 := { m3 with init_state_distn := newInit }
    let newTrans :=
      { m4.trans_distn with
        params := C.transMaxLikelihoodMsgs m4.trans_distn.params
          (m4.states_list.map (fun s => (s.alphal, s.betal, s.aBl))) }
    ({ m4 with trans_distn := newTrans }, none)
  else (m, some PyErr.assertionError)

/-- HMM.Viterbi_EM_step: Viterbi decode per chain, then maximum likelihood
updates on the hard assignments (data partitioned by decoded labels, first
decoded states, decoded state sequences). -/
def HMM.Viterbi_EM_step (C : Collab) (m : HMM) : HMM × Option PyErr :=
  if 0 < m.states_list.length then
    let m1 := clear_caches m
    let m2 := { m1 with states_list := m1.states_list.map C.chainViterbi }
    let newObs := m2.obs_distns.enum.map (fun sd =>
      let evidence := m2.states_list.map (fun s => dataForState s sd.1)
      { sd.2 with params := C.obsMaxLikelihood sd.2.params evidence })
    let m3 := { m2 with obs_distns := newObs }
    let newInit :=
      { m3.init_state_distn with
        params := C.initMaxLikelihood m3.init_state_distn.params
          (m3.states_list.map (fun s => s.stateseq.headD 0)) }
    let m4 := { m3 with init_state_distn := newInit }
    let newTrans :=
      { m4.trans_distn with
        params := C.transMaxLikelihood m4.trans_distn.params
          (m4.states_list.map Chain.stateseq) }
    ({ m4 with trans_distn := newTrans }, none)
  else (m, some PyErr.assertionError)

/-- C8: with zero attached chains both EM steps raise the precondition
assertion and return the model exactly as it was: no posterior and no chain
list mutation. -/
theorem em_steps_require_chains (C : Collab) (m : HMM)
    (h : m.states_list = []) :
    HMM.EM_step C m = (m, some PyErr.assertionError)
    ∧ HMM.Viterbi_EM_step C m = (m, some PyErr.assertionError) := by
  have hlen : ¬ 0 < m.states_list.length := by simp [h]
  constructor
  · unfold HMM.EM_step
    rw [if_neg hlen]
  · unfold HMM.Viterbi_EM_step
    rw [if_neg hlen]

/-- Trivial collaborator behaviour for witnesses. -/
def trivialCollab : Collab :=
  { obsResample := fun p _ => p,
    transResample := fun p _ => p,
    initResample := fun p _ => p,
    durResample := fun p _ _ => p,
    chainResample := id,
    chainEStep := id,
    chainViterbi := id,
    obsMaxLikelihoodW := fun p _ _ => p,
    obsMaxLikelihood := fun p _ => p,
    initMaxLikelihoodW := fun p _ => p,
    initMaxLikelihood := fun p _ => p,
    transMaxLikelihoodMsgs := fun p _ => p,
    transMaxLikelihood := fun p _ => p }

/-- A model with no attached chains. -/
def cmEmpty : HMM :=
  { num_states := 1, obs_distns := [⟨0, 1⟩],
    trans_distn := { num_states := 1, mode := TransMode.passedIn, params := 0 },
    init_state_distn := { params := 0, hasClearCaches := true, cache := false },
    states_list := [] }

/-- Witness for C8: both EM steps on a concrete chainless model raise the
assertion and leave the model untouched. -/
theorem em_steps_require_chains_witness :
    HMM.EM_step trivialCollab cmEmpty = (cmEmpty, some PyErr.assertionError)
    ∧ HMM.Viterbi_EM_step trivialCollab cmEmpty
        = (cmEmpty, some PyErr.assertionError) :=
  em_steps_require_chains trivialCollab cmEmpty rfl

/-!  BIC (models.py lines 252-265).  num_parameters is declared with
@property on both model classes, so the attribute reference
self.num_parameters evaluates the getter and yields a plain integer; the
source nevertheless writes self.num_parameters() with call syntax.  Python
values and the call semantics are modelled just finely enough to express
that: applying call syntax to a non callable value raises TypeError. -/

/-- A Python runtime value as needed by BIC: integers, rationals standing in
for floats, and bound methods. -/
inductive PyVal where
  | int (n : Int)
  | float (q : ℚ)
  | method (f : Unit → Int)

/-- Python call syntax applied to a value: only a method is callable;
anything else raises TypeError. -/
def pyCall : PyVal → Except PyErr PyVal
  | PyVal.method f => Except.ok (PyVal.int (f ()))
  | _ => Except.error PyErr.typeError

/-- Attribute access self.num_parameters: the @property getter runs and the
result is a plain (non callable) integer value. -/
def num_parameters_attr (m : HMM) : PyVal :=
  PyVal.int (Int.ofNat m.num_parameters)

/-- The generator sum on line 262: for each attached chain, score its data
with self.log_likelihood (a collaborator assembled computation, cf.
HMM.log_likelihood_data, which leaves the chains list unchanged) and add the
results, short circuiting on a raised exception. -/
def sumScores (score : List Int → Except PyErr ℚ) : List (List Int) → Except PyErr ℚ
  | [] => Except.ok 0
  | d :: ds =>
      match score d with
      | Except.error e => Except.error e
      | Except.ok v =>
          match sumScores score ds with
          | Except.error e => Except.error e
          | Except.ok w => Except.ok (v + w)

/-- HMM.BIC with default argument data=None.  The assert on line 260 requires
data to be None and at least one attached chain (so the data branch on line
265 is unreachable).  The left addend is evaluated first; then the source
evaluates self.num_parameters() and the call on the integer raises before
the np.log factor is ever computed, so the ok branch below is unreachable and
its value (the partially evaluated score) is never returned. -/
def HMM.BIC (score : List Int → Except PyErr ℚ) (m : HMM)
    (data : Option (List Int)) : Except PyErr ℚ :=
  if data = none ∧ 0 < m.states_list.length then
    match sumScores score (m.states_list.map Chain.data) with
    | Except.error e => Except.error e
    | Except.ok ll =>
        match pyCall (num_parameters_attr m) with
        | Except.error e => Except.error e
        | Except.ok _ => Except.ok (-2 * ll)
  else Except.error PyErr.assertionError

/-- C10: with at least one attached chain, BIC with its default argument
never returns a score: either one of the per chain scoring computations
raises and that exception propagates, or they all succeed and the call
syntax applied to the non callable num_parameters property value raises
TypeError after the precondition check passed. -/
theorem bic_default_always_raises (score : List Int → Except PyErr ℚ)
    (m : HMM) (h : 0 < m.states_list.length) :
    HMM.BIC score m none
      = (match sumScores score (m.states_list.map Chain.data) with
        | Except.error e => Except.error e
        | Except.ok _ => Except.error PyErr.typeError) := by
  unfold HMM.BIC
  rw [if_pos ⟨rfl, h⟩]
  cases sumScores score (m.states_list.map Chain.data) with
  | error e => rfl
  | ok ll => rfl

/-- Witness for C10: on the concrete one chain model with a scoring function
that always succeeds, BIC raises TypeError. -/
theorem bic_default_always_raises_witness :
    0 < cm1.states_list.length
    ∧ HMM.BIC (fun _ => Except.ok 0) cm1 none
        = (match sumScores (fun _ => Except.ok 0) (cm1.states_list.map Chain.data) with
          | Except.error e => Except.error e
          | Except.ok _ => Except.error PyErr.typeError) :=
  ⟨by decide, bic_default_always_raises (fun _ => Except.ok 0) cm1 (by decide)⟩

/-!  Predictive likelihood (models.py lines 318-355).  The source computes in
log space with floating point numbers: logaddexp.reduce realises the log of a
sum of exponentials, and the cmax rescaling (subtract a per row maximum
before exponentiating, re-add it before returning to log space) is an exact
algebraic identity.  The embedding is the exact arithmetic semantics of that
computation in linear (probability) space over the rationals: each log space
quantity log x is represented by x itself, logaddexp.reduce becomes a sum,
the elementwise addition of log likelihood tables becomes multiplication,
and the difference of logs that the source returns becomes a quotient, which
is faithful because log is injective on positive reals.  The forward message
computation lives in the external states collaborator; it is modelled from
the spec: one forward algorithm pass producing alpha[t, state], with
alpha[t+1, j] = (sum over i of alpha[t, i] * trans[i, j]) * likelihood of
observation t+1 under state j, seeded with the initial state distribution
times the likelihoods of the first observation. -/

/-- A length n vector of rationals (one entry per hidden state). -/
def Vec (n : ℕ) : Type := Fin n → ℚ

/-- An n by n rational matrix. -/
def Mat (n : ℕ) : Type := Fin n → Fin n → ℚ

/-- Matrix product. -/
def matmul {n : ℕ} (A B : Mat n) : Mat n := fun i k => ∑ j, A i j * B j k

/-- np.linalg.matrix_power: the k-th power of a square matrix. -/
def matrix_power {n : ℕ} (A : Mat n) : Nat → Mat n
  | 0 => fun i j => if i = j then 1 else 0
  | k + 1 => matmul (matrix_power A k) A

/-- Row vector times matrix. -/
def vecMat {n : ℕ} (v : Vec n) (A : Mat n) : Vec n := fun j => ∑ i, v i * A i j

/-- Sum of the entries of a vector (linear space logaddexp.reduce). -/
def vsum {n : ℕ} (v : Vec n) : ℚ := ∑ i, v i

/-- Dot product of two vectors. -/
def dotv {n : ℕ} (v w : Vec n) : ℚ := ∑ i, v i * w i

/-- Modelled from the spec: the tail of the forward algorithm recursion of
the external states object, starting from the message row prev and consuming
the remaining per time observation likelihood rows. -/
def messages_forwards_from {n : ℕ} (P : Mat n) : Vec n → List (Vec n) → List (Vec n)
  | prev, [] => [prev]
  | prev, b :: rest =>
      prev :: messages_forwards_from P (fun j => (∑ i, prev i * P i j) * b j) rest

/-- Modelled from the spec: s.messages_forwards() of the external states
object, the single forward algorithm pass over the held out sequence,
given the initial state distribution pi0, the transition matrix P and the
per time observation likelihood rows abl (the linear space aBl table). -/
def messages_forwards {n : ℕ} (pi0 : Vec n) (P : Mat n) : List (Vec n) → List (Vec n)
  | [] => []
  | b0 :: rest => messages_forwards_from P (fun j => pi0 j * b0 j) rest

/-- The loop of HMM.predictive_likelihoods (models.py lines 328-342) in
linear space: for each horizon k, advance the retained forward rows by the
matrix power for the step from the previous horizon after trimming the last
step rows, combine with the observation likelihood rows at offset k, and
divide by the total forward mass of the prefix. -/
def predictive_likelihoods_loop {n : ℕ} (P : Mat n) (alphal abl : List (Vec n)) :
    List (Vec n) → Nat → List Nat → List (List ℚ)
  | _, _, [] => []
  | scaled, prev_k, k :: ks =>
      let step := k - prev_k
      let scaled2 := (scaled.take (scaled.length - step)).map
        (fun v => vecMat v (matrix_power P step))
      let future := (scaled2.zip (abl.drop k)).map (fun vb => dotv vb.1 vb.2)
      let past := (alphal.take (alphal.length - k)).map vsum
      List.zipWith (fun a b => a / b) future past
        :: predictive_likelihoods_loop P alphal abl scaled2 k ks

/-- HMM.predictive_likelihoods (models.py lines 318-342) in linear space:
run the forward pass once, then process the horizons incrementally.  The
source returns log of each entry produced here. -/
def predictive_likelihoods {n : ℕ} (pi0 : Vec n) (P : Mat n)
    (abl : List (Vec n)) (forecast_horizons : List Nat) : List (List ℚ) :=
  let alphal := messages_forwards pi0 P abl
  predictive_likelihoods_loop P alphal abl alphal 0 forecast_horizons

/-- HMM.block_predictive_likelihoods (models.py lines 344-355) in linear
space: for each block length k, the total forward mass from index k onward
divided by the total forward mass up to index -k.  The source returns log of
each entry produced here. -/
def block_predictive_likelihoods {n : ℕ} (pi0 : Vec n) (P : Mat n)
    (abl : List (Vec n)) (blocklens : List Nat) : List (List ℚ) :=
  let alphal := messages_forwards pi0 P abl
  blocklens.map (fun k =>
    List.zipWith (fun a b => a / b) ((alphal.drop k).map vsum)
      ((alphal.take (alphal.length - k)).map vsum))

theorem mff_length {n : ℕ} (P : Mat n) :
    ∀ (l : List (Vec n)) (q : Vec n),
      (messages_forwards_from P q l).length = l.length + 1 := by
  intro l
  induction l with
  | nil => intro q; rfl
  | cons b rest ih =>
      intro q
      simp [messages_forwards_from, ih]

theorem mff_head_tail {n : ℕ} (P : Mat n) (q : Vec n) (l : List (Vec n)) :
    messages_forwards_from P q l
      = q :: (messages_forwards_from P q l).drop 1 := by
  cases l <;> rfl

theorem vecMat_matrix_power_one {n : ℕ} (P : Mat n) (v : Vec n) :
    vecMat v (matrix_power P 1) = vecMat v P := by
  funext j
  simp [vecMat, matrix_power, matmul, ite_mul, Finset.sum_ite_eq]

/-- Advancing each retained forward row one transition step and weighting by
the next observation likelihood row reproduces exactly the next forward row,
so its total mass equals the future quantity computed at horizon one. -/
theorem mff_future_eq_sums {n : ℕ} (P : Mat n) :
    ∀ (rest : List (Vec n)) (prev : Vec n),
      ((((messages_forwards_from P prev rest).take rest.length).map
          (fun v => vecMat v P)).zip rest).map (fun vb => dotv vb.1 vb.2)
        = ((messages_forwards_from P prev rest).drop 1).map vsum := by
  intro rest
  induction rest with
  | nil => intro prev; rfl
  | cons b rest ih =>
      intro prev
      simp only [messages_forwards_from, List.length_cons, List.take_succ_cons,
        List.map_cons, List.zip_cons_cons, List.drop_succ_cons, List.drop_zero]
      conv_rhs =>
        rw [mff_head_tail P (fun j => (∑ i, prev i * P i j) * b j) rest]
      rw [List.map_cons]
      refine congrArg₂ List.cons ?_ (ih _)
      rfl

/-- C4 (amended): for the single horizon k = 1 the two forecasting methods
agree on every input: the one step matrix advance combined with the
observation likelihoods at offset one reproduces exactly the next forward
row, so the normalized forecast scores coincide entrywise. -/
theorem predictive_eq_block_at_horizon_one {n : ℕ} (pi0 : Vec n) (P : Mat n)
    (abl : List (Vec n)) :
    predictive_likelihoods pi0 P abl [1]
      = block_predictive_likelihoods pi0 P abl [1] := by
  cases abl with
  | nil => rfl
  | cons b0 rest =>
      show predictive_likelihoods_loop P
          (messages_forwards_from P (fun j => pi0 j * b0 j) rest) (b0 :: rest)
          (messages_forwards_from P (fun j => pi0 j * b0 j) rest) 0 [1]
        = [List.zipWith (fun a b => a / b)
            (((messages_forwards_from P (fun j => pi0 j * b0 j) rest).drop 1).map vsum)
            (((messages_forwards_from P (fun j => pi0 j * b0 j) rest).take
              ((messages_forwards_from P (fun j => pi0 j * b0 j) rest).length - 1)).map
              vsum)]
      unfold predictive_likelihoods_loop
      refine congrArg₂ List.cons ?_ rfl
      refine congrArg₂ (List.zipWith (fun a b => a / b)) ?_ rfl
      have hlen : (messages_forwards_from P (fun j => pi0 j * b0 j) rest).length - (1 - 0)
          = rest.length := by
        rw [mff_length]
        rfl
      rw [hlen]
      have hpow : (fun v : Vec n => vecMat v (matrix_power P (1 - 0)))
          = (fun v : Vec n => vecMat v P) :=
        funext (fun v => vecMat_matrix_power_one P v)
      rw [hpow, List.drop_succ_cons, List.drop_zero]
      exact mff_future_eq_sums P rest (fun j => pi0 j * b0 j)

/-- The counterexample initial distribution: all mass on state 0. -/
def cexPi0 : Vec 2 := fun i => if i.val = 0 then 1 else 0

/-- The counterexample transition matrix: rows (1/2, 1/2) and (0, 1). -/
def cexP : Mat 2 := fun i j =>
  if i.val = 0 then 1 / 2 else if j.val = 0 then 0 else 1

/-- The counterexample per time observation likelihood rows: uniform at times
0 and 2, informative at time 1 (state 1 explains the middle observation half
as well as state 0). -/
def cexB : List (Vec 2) :=
  [fun _ => 1, fun j => if j.val = 0 then 1 else 1 / 2, fun _ => 1]

/-- C4 (counterexample): at the single horizon 2 the two methods differ on a
concrete two state model, because predictive_likelihoods marginalizes the
intermediate observation away (pure transition matrix powering plus only the
offset 2 observation term, giving 1 here) while block_predictive_likelihoods
conditions on the whole observed block (giving 3/4 here).  Since the source
returns logs of these values and log is injective on positive reals, the
floating point code computes different outputs as well. -/
theorem predictive_cex_eval :
    predictive_likelihoods cexPi0 cexP cexB [2] = [[1]] := by
  simp only [predictive_likelihoods, cexB, messages_forwards, messages_forwards_from,
    predictive_likelihoods_loop, matrix_power, matmul, vecMat, vsum, dotv,
    cexPi0, cexP, Fin.sum_univ_two, Fin.val_zero, Fin.val_one,
    List.length_cons, List.length_nil, List.take, List.drop, List.zip_cons_cons,
    List.map_cons, List.map_nil, List.zipWith_cons_cons, List.zipWith_nil_right]
  norm_num

theorem block_cex_eval :
    block_predictive_likelihoods cexPi0 cexP cexB [2] = [[3 / 4]] := by
  simp only [block_predictive_likelihoods, cexB, messages_forwards,
    messages_forwards_from, vsum, cexPi0, cexP, Fin.sum_univ_two, Fin.val_zero,
    Fin.val_one, List.length_cons, List.length_nil, List.take, List.drop,
    List.map_cons, List.map_nil, List.zipWith_cons_cons, List.zipWith_nil_right]
  norm_num

theorem predictive_vs_block_horizon_two_cex :
    predictive_likelihoods cexPi0 cexP cexB [2]
      ≠ block_predictive_likelihoods cexPi0 cexP cexB [2] := by
  rw [predictive_cex_eval, block_cex_eval]
  norm_num

/-!  Copy / snapshot discipline (models.py lines 148-154 and 461-464).  The
aliasing behaviour of copy.copy plus the per component copy_sample calls is
what the claim is about, so this part of the embedding makes the Python
object graph explicit: a store maps references to objects, the model record
holds references, collaborator copy_sample calls allocate fresh objects
carrying the current value of the source object, and the mutating operations
of the original model (posterior resampling, chain state resampling or
overwriting) write through the original references only. -/

namespace Refs

/-- A heap object: a posterior object carrying its current sampled parameter
value (observation, transition, initial state or duration posterior alike),
a chain state object carrying its parent model reference and its state
sequence, or a model object. -/
inductive Obj where
  | distn (params : Int)
  | chain (modelRef : Nat) (stateseq : List Nat)
  | model
  deriving DecidableEq, Repr

/-- Whether an object is a chain state object. -/
def Obj.isChain : Obj → Bool
  | Obj.chain _ _ => true
  | _ => false

/-- Whether a chain state object holds the given parent model reference. -/
def Obj.pointsTo (o : Obj) (r : Nat) : Bool :=
  match o with
  | Obj.chain mr _ => mr == r
  | _ => false

/-- The object store: an allocation bound and the heap contents. -/
structure Store where
  next : Nat
  mem : Nat → Obj

/-- Allocate a fresh object, returning its reference. -/
def Store.alloc (st : Store) (o : Obj) : Nat × Store :=
  (st.next,
   { next := st.next + 1, mem := fun r => if r = st.next then o else st.mem r })

/-- Allocate a list of objects in order. -/
def allocList : Store → List Obj → List Nat × Store
  | st, [] => ([], st)
  | st, o :: os =>
      let a := st.alloc o
      let rest := allocList a.2 os
      (a.1 :: rest.1, rest.2)

/-- Overwrite the object at an existing reference (Python in place
mutation). -/
def Store.write (st : Store) (r : Nat) (o : Obj) : Store :=
  { st with mem := fun x => if x = r then o else st.mem x }

/-- A model as a record of references into the store, mirroring the
attributes of the Python object: the model object itself, the observation
posterior list, the transition and initial state posteriors, the duration
posterior list (empty for a plain HMM) and the chains list. -/
structure ModelR where
  self_ref : Nat
  obs_refs : List Nat
  trans_ref : Nat
  init_ref : Nat
  dur_refs : List Nat
  chain_refs : List Nat
  deriving DecidableEq, Repr

/-- Every reference through which a mutating operation of the model can
write. -/
def ModelR.mutRefs (m : ModelR) : List Nat :=
  m.obs_refs ++ m.trans_ref :: m.init_ref :: (m.dur_refs ++ m.chain_refs)

/-- The observable content of a model: the dereferenced posterior objects and
chain objects. -/
def ModelR.observe (m : ModelR) (st : Store) :
    List Obj × Obj × Obj × List Obj × List Obj :=
  (m.obs_refs.map st.mem, st.mem m.trans_ref, st.mem m.init_ref,
   m.dur_refs.map st.mem, m.chain_refs.map st.mem)

/-- ChainState.copy_sample(new): a fresh chain object with the same state
sequence whose parent reference is the new model. -/
def chainCopyObj (newModel : Nat) : Obj → Obj
  | Obj.chain _ seq => Obj.chain newModel seq
  | o => o

/-!  Model.copy_sample (HMM lines 148-154, HSMM lines 461-464), split into
its successive allocation stages: copy.copy creates the new model object
(cs1), then the observation posteriors (cs2, one o.copy_sample() per
posterior), the transition posterior (cs3), the initial state posterior
(cs4), the duration posteriors (cs5, HSMM, empty list for an HMM) and the
chains (cs6, one s.copy_sample(new) per chain, each referencing the new
model object) are replaced by freshly allocated value copies. -/

/-- Stage 1 of copy_sample: copy.copy allocates the new model object. -/
def cs1 (st : Store) : Nat × Store := st.alloc Obj.model

/-- Stage 2: value copies of the observation posteriors. -/
def cs2 (st : Store) (m : ModelR) : List Nat × Store :=
  allocList (cs1 st).2 (m.obs_refs.map (cs1 st).2.mem)

/-- Stage 3: value copy of the transition posterior. -/
def cs3 (st : Store) (m : ModelR) : Nat × Store :=
  (cs2 st m).2.alloc ((cs2 st m).2.mem m.trans_ref)

/-- Stage 4: value copy of the initial state posterior. -/
def cs4 (st : Store) (m : ModelR) : Nat × Store :=
  (cs3 st m).2.alloc ((cs3 st m).2.mem m.init_ref)

/-- Stage 5: value copies of the duration posteriors. -/
def cs5 (st : Store) (m : ModelR) : List Nat × Store :=
  allocList (cs4 st m).2 (m.dur_refs.map (cs4 st m).2.mem)

/-- Stage 6: fresh chain objects carrying the old state sequences and
referencing the new model object. -/
def cs6 (st : Store) (m : ModelR) : List Nat × Store :=
  allocList (cs5 st m).2
    (m.chain_refs.map (fun r => chainCopyObj (cs1 st).1 ((cs5 st m).2.mem r)))

/-- Model.copy_sample: the new model record assembled from the stages, and
the final store. -/
def copy_sample (st : Store) (m : ModelR) : ModelR × Store :=
  ({ self_ref := (cs1 st).1, obs_refs := (cs2 st m).1, trans_ref := (cs3 st m).1,
     init_ref := (cs4 st m).1, dur_refs := (cs5 st m).1,
     chain_refs := (cs6 st m).1 }, (cs6 st m).2)

/-- A mutation of the original model: resampling one of its posteriors draws
a new sampled parameter value into the existing posterior object; resampling
or overwriting the state sequence of chain i writes the new sequence into
the existing chain object. -/
inductive Mutation where
  | resampleObs (k : Nat) (v : Int)
  | resampleTrans (v : Int)
  | resampleInit (v : Int)
  | resampleDur (k : Nat) (v : Int)
  | setStateseq (i : Nat) (seq : List Nat)

/-- Apply one mutation of the model m to the store. -/
def applyMutation (m : ModelR) (st : Store) : Mutation → Store
  | Mutation.resampleObs k v =>
      match m.obs_refs.get? k with
      | some r => st.write r (Obj.distn v)
      | none => st
  | Mutation.resampleTrans v => st.write m.trans_ref (Obj.distn v)
  | Mutation.resampleInit v => st.write m.init_ref (Obj.distn v)
  | Mutation.resampleDur k v =>
      match m.dur_refs.get? k with
      | some r => st.write r (Obj.distn v)
      | none => st
  | Mutation.setStateseq i seq =>
      match m.chain_refs.get? i with
      | some r =>
          match st.mem r with
          | Obj.chain mr _ => st.write r (Obj.chain mr seq)
          | _ => st
      | none => st

/-- Apply a sequence of mutations of the model m, in order. -/
def applyMutations (m : ModelR) : List Mutation → Store → Store
  | [], st => st
  | u :: us, st => applyMutations m us (applyMutation m st u)

/-- Store extension: allocation grows the bound and never changes an already
allocated cell. -/
def Ext (st1 st2 : Store) : Prop :=
  st1.next ≤ st2.next ∧ ∀ x, x < st1.next → st2.mem x = st1.mem x

theorem Ext.rfl (st : Store) : Ext st st := ⟨Nat.le_refl _, fun _ _ => Eq.refl _⟩

theorem Ext.trans {a b c : Store} (h1 : Ext a b) (h2 : Ext b c) : Ext a c :=
  ⟨Nat.le_trans h1.1 h2.1,
   fun x hx => (h2.2 x (Nat.lt_of_lt_of_le hx h1.1)).trans (h1.2 x hx)⟩

theorem alloc_ext (st : Store) (o : Obj) : Ext st (st.alloc o).2 := by
  refine ⟨Nat.le_succ _, fun x hx => ?_⟩
  simp only [Store.alloc]
  rw [if_neg (by omega)]

theorem allocList_ext : ∀ (os : List Obj) (st : Store), Ext st (allocList st os).2
  | [], st => Ext.rfl st
  | o :: os, st =>
      Ext.trans (alloc_ext st o) (allocList_ext os (st.alloc o).2)

theorem allocList_refs_ge :
    ∀ (os : List Obj) (st : Store) (r : Nat),
      r ∈ (allocList st os).1 → st.next ≤ r := by
  intro os
  induction os with
  | nil => intro st r h; cases h
  | cons o os ih =>
      intro st r h
      rcases List.mem_cons.1 h with h1 | h1
      · subst h1; exact Nat.le_refl _
      · exact Nat.le_trans (Nat.le_succ _) (ih (st.alloc o).2 r h1)

theorem allocList_refs_lt :
    ∀ (os : List Obj) (st : Store) (r : Nat),
      r ∈ (allocList st os).1 → r < (allocList st os).2.next := by
  intro os
  induction os with
  | nil => intro st r h; cases h
  | cons o os ih =>
      intro st r h
      rcases List.mem_cons.1 h with h1 | h1
      · subst h1
        have h2 := (allocList_ext os (st.alloc o).2).1
        have h3 : (st.alloc o).1 < (st.alloc o).2.next := Nat.lt_succ_self _
        exact Nat.lt_of_lt_of_le h3 h2
      · exact ih (st.alloc o).2 r h1

theorem allocList_get :
    ∀ (os : List Obj) (st : Store),
      ((allocList st os).1).map (allocList st os).2.mem = os := by
  intro os
  induction os with
  | nil => intro st; rfl
  | cons o os ih =>
      intro st
      show (allocList (st.alloc o).2 os).2.mem st.next
          :: ((allocList (st.alloc o).2 os).1).map (allocList (st.alloc o).2 os).2.mem
        = o :: os
      rw [ih (st.alloc o).2,
        (allocList_ext os (st.alloc o).2).2 st.next (Nat.lt_succ_self _)]
      simp [Store.alloc]

theorem alloc_mem_self (st : Store) (o : Obj) :
    (st.alloc o).2.mem (st.alloc o).1 = o := by
  simp [Store.alloc]

theorem write_mem_ne (st : Store) (r : Nat) (o : Obj) (x : Nat) (h : x ≠ r) :
    (st.write r o).mem x = st.mem x := by
  simp [Store.write, h]

theorem applyMutation_mem_high (m : ModelR) (N : Nat)
    (hWF : ∀ r ∈ m.mutRefs, r < N) (st : Store) (u : Mutation)
    (x : Nat) (hx : N ≤ x) :
    (applyMutation m st u).mem x = st.mem x := by
  have hne : ∀ r ∈ m.mutRefs, x ≠ r := by
    intro r hr
    have := hWF r hr
    omega
  cases u with
  | resampleObs k v =>
      show (match m.obs_refs.get? k with
        | some r => st.write r (Obj.distn v)
        | none => st).mem x = st.mem x
      cases hk : m.obs_refs.get? k with
      | none => rfl
      | some r =>
          refine write_mem_ne st r _ x (hne r ?_)
          have hmem := List.get?_mem hk
          simp [ModelR.mutRefs, hmem]
  | resampleTrans v =>
      refine write_mem_ne st m.trans_ref _ x (hne m.trans_ref ?_)
      simp [ModelR.mutRefs]
  | resampleInit v =>
      refine write_mem_ne st m.init_ref _ x (hne m.init_ref ?_)
      simp [ModelR.mutRefs]
  | resampleDur k v =>
      show (match m.dur_refs.get? k with
        | some r => st.write r (Obj.distn v)
        | none => st).mem x = st.mem x
      cases hk : m.dur_refs.get? k with
      | none => rfl
      | some r =>
          refine write_mem_ne st r _ x (hne r ?_)
          have hmem := List.get?_mem hk
          simp [ModelR.mutRefs, hmem]
  | setStateseq i seq =>
      show (match m.chain_refs.get? i with
        | some r =>
            match st.mem r with
            | Obj.chain mr _ => st.write r (Obj.chain mr seq)
            | _ => st
        | none => st).mem x = st.mem x
      cases hk : m.chain_refs.get? i with
      | none => rfl
      | some r =>
          have hmem := List.get?_mem hk
          have hxr : x ≠ r := hne r (by simp [ModelR.mutRefs, hmem])
          show (match st.mem r with
            | Obj.chain mr _ => st.write r (Obj.chain mr seq)
            | _ => st).mem x = st.mem x
          cases st.mem r with
          | chain mr s => exact write_mem_ne st r _ x hxr
          | distn p => rfl
          | model => rfl

theorem applyMutations_mem_high (m : ModelR) (N : Nat)
    (hWF : ∀ r ∈ m.mutRefs, r < N) :
    ∀ (us : List Mutation) (st : Store) (x : Nat), N ≤ x →
      (applyMutations m us st).mem x = st.mem x := by
  intro us
  induction us with
  | nil => intro st x _; rfl
  | cons u us ih =>
      intro st x hx
      show (applyMutations m us (applyMutation m st u)).mem x = st.mem x
      rw [ih (applyMutation m st u) x hx,
        applyMutation_mem_high m N hWF st u x hx]

/-- The copy is fresh and carries the values of the original at copy time:
each reference of the copy is at or above the allocation bound at copy time,
the final store extends the original, the copied posterior objects equal the
originals, and the copied chain objects are the originals with the parent
reference replaced by the new model object. -/
theorem copy_sample_spec (st : Store) (m : ModelR)
    (hWF : ∀ r ∈ m.mutRefs, r < st.next) :
    (∀ r ∈ (copy_sample st m).1.mutRefs, st.next ≤ r)
    ∧ (copy_sample st m).1.obs_refs.map (copy_sample st m).2.mem
        = m.obs_refs.map st.mem
    ∧ (copy_sample st m).2.mem (copy_sample st m).1.trans_ref
        = st.mem m.trans_ref
    ∧ (copy_sample st m).2.mem (copy_sample st m).1.init_ref
        = st.mem m.init_ref
    ∧ (copy_sample st m).1.dur_refs.map (copy_sample st m).2.mem
        = m.dur_refs.map st.mem
    ∧ (copy_sample st m).1.chain_refs.map (copy_sample st m).2.mem
        = (m.chain_refs.map st.mem).map
            (chainCopyObj (copy_sample st m).1.self_ref) := by
  have hobs : ∀ r ∈ m.obs_refs, r < st.next := by
    intro r hr; exact hWF r (by simp [ModelR.mutRefs, hr])
  have htrans : m.trans_ref < st.next := hWF _ (by simp [ModelR.mutRefs])
  have hinit : m.init_ref < st.next := hWF _ (by simp [ModelR.mutRefs])
  have hdur : ∀ r ∈ m.dur_refs, r < st.next := by
    intro r hr; exact hWF r (by simp [ModelR.mutRefs, hr])
  have hchain : ∀ r ∈ m.chain_refs, r < st.next := by
    intro r hr; exact hWF r (by simp [ModelR.mutRefs, hr])
  have e1 : Ext st (cs1 st).2 := alloc_ext st Obj.model
  have e2 : Ext (cs1 st).2 (cs2 st m).2 := allocList_ext _ _
  have e3 : Ext (cs2 st m).2 (cs3 st m).2 := alloc_ext _ _
  have e4 : Ext (cs3 st m).2 (cs4 st m).2 := alloc_ext _ _
  have e5 : Ext (cs4 st m).2 (cs5 st m).2 := allocList_ext _ _
  have e6 : Ext (cs5 st m).2 (cs6 st m).2 := allocList_ext _ _
  have e12 : Ext st (cs2 st m).2 := e1.trans e2
  have e13 : Ext st (cs3 st m).2 := e12.trans e3
  have e14 : Ext st (cs4 st m).2 := e13.trans e4
  have e15 : Ext st (cs5 st m).2 := e14.trans e5
  have e36 : Ext (cs3 st m).2 (cs6 st m).2 := e4.trans (e5.trans e6)
  have e46 : Ext (cs4 st m).2 (cs6 st m).2 := e5.trans e6
  have e26 : Ext (cs2 st m).2 (cs6 st m).2 := e3.trans e36
  refine ⟨?_, ?_, ?_, ?_, ?_, ?_⟩
  · -- freshness of every reference of the copy
    intro r hr
    simp only [copy_sample, ModelR.mutRefs, List.mem_append, List.mem_cons] at hr
    rcases hr with hr | hr | hr | hr | hr
    · have := allocList_refs_ge _ _ _ hr
      have h1 : (cs1 st).2.next = st.next + 1 := rfl
      omega
    · subst hr
      exact Nat.le_trans e12.1 (Nat.le_refl _)
    · subst hr
      exact e13.1
    · have := allocList_refs_ge _ _ _ hr
      exact Nat.le_trans e14.1 this
    · have := allocList_refs_ge _ _ _ hr
      exact Nat.le_trans e15.1 this
  · -- observation posterior values
    show (cs2 st m).1.map (cs6 st m).2.mem = m.obs_refs.map st.mem
    have hkeep : (cs2 st m).1.map (cs6 st m).2.mem
        = (cs2 st m).1.map (cs2 st m).2.mem := by
      refine List.map_congr_left ?_
      intro r hr
      exact e26.2 r (allocList_refs_lt _ _ _ hr)
    rw [hkeep]
    have hget : (cs2 st m).1.map (cs2 st m).2.mem
        = m.obs_refs.map (cs1 st).2.mem := allocList_get _ _
    rw [hget]
    refine List.map_congr_left ?_
    intro r hr
    exact e1.2 r (hobs r hr)
  · -- transition posterior value
    show (cs6 st m).2.mem (cs3 st m).1 = st.mem m.trans_ref
    have hlt : (cs3 st m).1 < (cs3 st m).2.next := Nat.lt_succ_self _
    rw [e36.2 _ hlt]
    show ((cs2 st m).2.alloc ((cs2 st m).2.mem m.trans_ref)).2.mem
        ((cs2 st m).2.alloc ((cs2 st m).2.mem m.trans_ref)).1 = st.mem m.trans_ref
    rw [alloc_mem_self]
    exact e12.2 _ htrans
  · -- initial state posterior value
    show (cs6 st m).2.mem (cs4 st m).1 = st.mem m.init_ref
    have hlt : (cs4 st m).1 < (cs4 st m).2.next := Nat.lt_succ_self _
    rw [e46.2 _ hlt]
    show ((cs3 st m).2.alloc ((cs3 st m).2.mem m.init_ref)).2.mem
        ((cs3 st m).2.alloc ((cs3 st m).2.mem m.init_ref)).1 = st.mem m.init_ref
    rw [alloc_mem_self]
    exact e13.2 _ hinit
  · -- duration posterior values
    show (cs5 st m).1.map (cs6 st m).2.mem = m.dur_refs.map st.mem
    have hkeep : (cs5 st m).1.map (cs6 st m).2.mem
        = (cs5 st m).1.map (cs5 st m).2.mem := by
      refine List.map_congr_left ?_
      intro r hr
      exact e6.2 r (allocList_refs_lt _ _ _ hr)
    rw [hkeep]
    have hget : (cs5 st m).1.map (cs5 st m).2.mem
        = m.dur_refs.map (cs4 st m).2.mem := allocList_get _ _
    rw [hget]
    refine List.map_congr_left ?_
    intro r hr
    exact e14.2 r (hdur r hr)
  · -- chain objects: old state sequences, new parent reference
    show (cs6 st m).1.map (cs6 st m).2.mem
        = (m.chain_refs.map st.mem).map (chainCopyObj (cs1 st).1)
    have hget : (cs6 st m).1.map (cs6 st m).2.mem
        = m.chain_refs.map (fun r => chainCopyObj (cs1 st).1 ((cs5 st m).2.mem r)) :=
      allocList_get _ _
    rw [hget, List.map_map]
    refine List.map_congr_left ?_
    intro r hr
    show chainCopyObj (cs1 st).1 ((cs5 st m).2.mem r)
        = chainCopyObj (cs1 st).1 (st.mem r)
    rw [e15.2 r (hchain r hr)]

/-- A chain object with any parent gets the new parent after copying. -/
theorem chainCopyObj_pointsTo (s : Nat) (o : Obj) (h : o.isChain = true) :
    (chainCopyObj s o).pointsTo s = true := by
  cases o with
  | chain mr seq => simp [chainCopyObj, Obj.pointsTo]
  | distn p => cases h
  | model => cases h

/-- C7: copy_sample produces an independent value copy.  Under the heap well
formedness of the original (its references are allocated, its chains are
chain objects), after any sequence of subsequent mutations of the original
model (posterior resampling, chain state resampling or overwriting) the
observable content of the copy is exactly what it was at copy time; moreover
at copy time the copy holds the parameter values and state sequences of the
original, and every copied chain references the new model object. -/
theorem copy_sample_immune_to_original_mutation
    (st : Store) (m : ModelR)
    (hWF : ∀ r ∈ m.mutRefs, r < st.next)
    (hChains : (m.chain_refs.map st.mem).all Obj.isChain = true)
    (us : List Mutation) :
    ((copy_sample st m).1).observe (applyMutations m us (copy_sample st m).2)
      = ((copy_sample st m).1).observe (copy_sample st m).2
    ∧ (copy_sample st m).1.obs_refs.map (copy_sample st m).2.mem
        = m.obs_refs.map st.mem
    ∧ (copy_sample st m).2.mem (copy_sample st m).1.trans_ref
        = st.mem m.trans_ref
    ∧ (copy_sample st m).2.mem (copy_sample st m).1.init_ref
        = st.mem m.init_ref
    ∧ (copy_sample st m).1.dur_refs.map (copy_sample st m).2.mem
        = m.dur_refs.map st.mem
    ∧ (copy_sample st m).1.chain_refs.map (copy_sample st m).2.mem
        = (m.chain_refs.map st.mem).map
            (chainCopyObj (copy_sample st m).1.self_ref)
    ∧ ((copy_sample st m).1.chain_refs.map (copy_sample st m).2.mem).all
        (fun o => o.pointsTo (copy_sample st m).1.self_ref) = true := by
  obtain ⟨hfresh, hobs, htr, hin, hdur, hch⟩ := copy_sample_spec st m hWF
  have hpres : ∀ r ∈ (copy_sample st m).1.mutRefs,
      (applyMutations m us (copy_sample st m).2).mem r
        = (copy_sample st m).2.mem r := by
    intro r hr
    exact applyMutations_mem_high m st.next hWF us _ r (hfresh r hr)
  refine ⟨?_, hobs, htr, hin, hdur, hch, ?_⟩
  · unfold ModelR.observe
    have h1 : (copy_sample st m).1.obs_refs.map
          (applyMutations m us (copy_sample st m).2).mem
        = (copy_sample st m).1.obs_refs.map (copy_sample st m).2.mem :=
      List.map_congr_left (fun r hr => hpres r (by simp [ModelR.mutRefs, hr]))
    have h2 : (applyMutations m us (copy_sample st m).2).mem
          (copy_sample st m).1.trans_ref
        = (copy_sample st m).2.mem (copy_sample st m).1.trans_ref :=
      hpres _ (by simp [ModelR.mutRefs])
    have h3 : (applyMutations m us (copy_sample st m).2).mem
          (copy_sample st m).1.init_ref
        = (copy_sample st m).2.mem (copy_sample st m).1.init_ref :=
      hpres _ (by simp [ModelR.mutRefs])
    have h4 : (copy_sample st m).1.dur_refs.map
          (applyMutations m us (copy_sample st m).2).mem
        = (copy_sample st m).1.dur_refs.map (copy_sample st m).2.mem :=
      List.map_congr_left (fun r hr => hpres r (by simp [ModelR.mutRefs, hr]))
    have h5 : (copy_sample st m).1.chain_refs.map
          (applyMutations m us (copy_sample st m).2).mem
        = (copy_sample st m).1.chain_refs.map (copy_sample st m).2.mem :=
      List.map_congr_left (fun r hr => hpres r (by simp [ModelR.mutRefs, hr]))
    rw [h1, h2, h3, h4, h5]
  · rw [hch, List.all_map, List.all_eq_true]
    intro o ho
    exact chainCopyObj_pointsTo _ o (List.all_eq_true.1 hChains o ho)

/-- The heap of the witness: two observation posteriors at 0 and 1, the
transition posterior at 2, one chain at 3 owned by the model object at 5,
the initial state posterior at 4. -/
def cstMem : Nat → Obj := fun r =>
  if r = 0 then Obj.distn 10
  else if r = 1 then Obj.distn 11
  else if r = 2 then Obj.distn 12
  else if r = 3 then Obj.chain 5 [0, 1]
  else if r = 4 then Obj.distn 13
  else Obj.model

/-- The witness store. -/
def cst : Store := { next := 6, mem := cstMem }

/-- The witness model. -/
def cmod : ModelR :=
  { self_ref := 5, obs_refs := [0, 1], trans_ref := 2, init_ref := 4,
    dur_refs := [], chain_refs := [3] }

/-- A concrete mutation sequence: a full parameter resample of the original
followed by overwriting the state sequence of its chain. -/
def cmuts : List Mutation :=
  [Mutation.resampleObs 0 99, Mutation.resampleObs 1 98,
   Mutation.resampleTrans 97, Mutation.resampleInit 96,
   Mutation.setStateseq 0 [1, 1]]

/-- Witness for C7: the copy independence theorem instantiated at a concrete
heap, model and mutation sequence, with the well formedness hypotheses
discharged by computation. -/
theorem copy_sample_immune_witness :
    (∀ r ∈ cmod.mutRefs, r < cst.next)
    ∧ (cmod.chain_refs.map cst.mem).all Obj.isChain = true
    ∧ (((copy_sample cst cmod).1).observe
          (applyMutations cmod cmuts (copy_sample cst cmod).2)
        = ((copy_sample cst cmod).1).observe (copy_sample cst cmod).2
      ∧ (copy_sample cst cmod).1.obs_refs.map (copy_sample cst cmod).2.mem
          = cmod.obs_refs.map cst.mem
      ∧ (copy_sample cst cmod).2.mem (copy_sample cst cmod).1.trans_ref
          = cst.mem cmod.trans_ref
      ∧ (copy_sample cst cmod).2.mem (copy_sample cst cmod).1.init_ref
          = cst.mem cmod.init_ref
      ∧ (copy_sample cst cmod).1.dur_refs.map (copy_sample cst cmod).2.mem
          = cmod.dur_refs.map cst.mem
      ∧ (copy_sample cst cmod).1.chain_refs.map (copy_sample cst cmod).2.mem
          = (cmod.chain_refs.map cst.mem).map
              (chainCopyObj (copy_sample cst cmod).1.self_ref)
      ∧ ((copy_sample cst cmod).1.chain_refs.map (copy_sample cst cmod).2.mem).all
          (fun o => o.pointsTo (copy_sample cst cmod).1.self_ref) = true) :=
  ⟨by decide, by decide,
   copy_sample_immune_to_original_mutation cst cmod (by decide) (by decide) cmuts⟩

end Refs

end Pyhsmm
